import Mathlib

/-
  Verification of the invoice-extraction pipeline (backend/app/llm_service.py
  and backend/app/routes.py) against its natural-language specification.

  Conventions of the shallow embedding:
  * Python floats/ints are modelled exactly as rationals/integers (`ℚ`/`ℤ`);
    no claim under scrutiny depends on IEEE rounding.
  * Loosely typed Python values (the contents of the candidate dictionaries)
    are modelled by `PyVal`; a missing dictionary key is `Option.none`.
  * A Python function that can raise is modelled as returning `Option`;
    `none` means an exception escaped the modelled code.
  * External, nondeterministic capabilities (the generative-model call, OCR,
    the database) are parameters of the modelled functions.
-/

namespace CaseStudy

/-- A loosely typed Python value as it occurs in the candidate dictionaries
flowing through `_cleanExtractedData` and the orchestrator. -/
inductive PyVal where
  | vnum (q : ℚ)
  | vstr (s : String)
  | vbool (b : Bool)
  | vnone
deriving DecidableEq

/-- Python truthiness for the values we model (`if data.get('order_date'):`). -/
def pyTruthy : PyVal → Bool
  | .vnum q => q != 0
  | .vstr s => s != ""
  | .vbool b => b
  | .vnone => false

/-- The whitespace characters stripped by Python `str.strip()` (ASCII part). -/
def isPyWs (c : Char) : Bool :=
  c = ' ' || c = '\t' || c = '\n' || c = '\x0d' || c = '\x0b' || c = '\x0c'

/-- `str.strip()` on a character list. -/
def pyStripList (l : List Char) : List Char :=
  ((l.dropWhile isPyWs).reverse.dropWhile isPyWs).reverse

/-- Python `str.strip()`. -/
def pyStrip (s : String) : String := String.mk (pyStripList s.data)

/-- Numeric value of a list of decimal digits. -/
def digitsToNat (ds : List Char) : Nat :=
  ds.foldl (fun a c => a * 10 + (c.toNat - 48)) 0

/-- Leading optional sign of a Python numeric literal. -/
def readSign : List Char → ℚ × List Char
  | '+' :: r => (1, r)
  | '-' :: r => (-1, r)
  | cs => (1, cs)

/-- Mantissa of a Python float literal: `digits [. digits?] | . digits`. -/
def parseFloatBody (cs : List Char) : Option (ℚ × List Char) :=
  let intPart := cs.takeWhile Char.isDigit
  let rest := cs.dropWhile Char.isDigit
  match intPart, rest with
  | [], '.' :: r2 =>
      let fr := r2.takeWhile Char.isDigit
      if fr = [] then none
      else some ((digitsToNat fr : ℚ) / (10 : ℚ) ^ fr.length, r2.dropWhile Char.isDigit)
  | [], _ => none
  | ds, '.' :: r2 =>
      let fr := r2.takeWhile Char.isDigit
      some ((digitsToNat ds : ℚ) + (digitsToNat fr : ℚ) / (10 : ℚ) ^ fr.length,
            r2.dropWhile Char.isDigit)
  | ds, r => some ((digitsToNat ds : ℚ), r)

/-- Optional exponent of a Python float literal. Returns the scaled value. -/
def applyExponent (q : ℚ) (cs : List Char) : Option ℚ :=
  match cs with
  | [] => some q
  | e :: r =>
      if e = 'e' || e = 'E' then
        let (sg, r1) := readSign r
        let ds := r1.takeWhile Char.isDigit
        if ds = [] || r1.dropWhile Char.isDigit ≠ [] then none
        else if sg = 1 then some (q * (10 : ℚ) ^ digitsToNat ds)
        else some (q / (10 : ℚ) ^ digitsToNat ds)
      else none

/-- Python `float(s)` on a string: strips whitespace, accepts an optional
sign, a decimal mantissa and an optional exponent; anything else raises
(`none`).  `inf`/`nan` spellings and digit underscores are not modelled;
no claim involves them. -/
def pyFloatOfString (s : String) : Option ℚ :=
  let cs := pyStripList s.data
  let (neg, cs1) :=
    match cs with
    | '-' :: r => (true, r)
    | '+' :: r => (false, r)
    | r => (false, r)
  match parseFloatBody cs1 with
  | none => none
  | some (q, rest) => (applyExponent q rest).map (fun v => if neg then -v else v)

/-- Python `int(s)` on a string: optional sign and decimal digits only. -/
def pyIntOfString (s : String) : Option ℤ :=
  let cs := pyStripList s.data
  let (sg, cs1) :=
    match cs with
    | '+' :: r => ((1 : ℤ), r)
    | '-' :: r => ((-1 : ℤ), r)
    | r => ((1 : ℤ), r)
  let ds := cs1.takeWhile Char.isDigit
  if ds = [] || cs1.dropWhile Char.isDigit ≠ [] then none
  else some (sg * (digitsToNat ds : ℤ))

/-- Truncation toward zero, the semantics of Python `int(float)`. -/
def ratTruncToInt (q : ℚ) : ℤ := q.num.tdiv (q.den : ℤ)

/-- Python `float(v)` on a loosely typed value; `none` models the
`ValueError`/`TypeError` raised on a non-coercible value. -/
def pyFloat : PyVal → Option ℚ
  | .vnum q => some q
  | .vstr s => pyFloatOfString s
  | .vbool b => some (if b then 1 else 0)
  | .vnone => none

/-- Python `int(v)` on a loosely typed value. -/
def pyInt : PyVal → Option ℤ
  | .vnum q => some (ratTruncToInt q)
  | .vstr s => pyIntOfString s
  | .vbool b => some (if b then 1 else 0)
  | .vnone => none

/-- The decimal digit character for `n % 10`. -/
def digitChar (n : Nat) : Char := Char.ofNat (48 + n % 10)

/-- Python `f"{n:04d}"` for `n < 10000` (the only use sites reduce mod 10000). -/
def pad4 (n : Nat) : String :=
  String.mk [digitChar (n / 1000), digitChar (n / 100), digitChar (n / 10), digitChar n]

/-- Python `f"{n:02d}"` for `n < 100`. -/
def pad2 (n : Nat) : String := String.mk [digitChar (n / 10), digitChar n]

/-- Model of `abs(hash(text))` for Python's built-in string hash.  The real
hash is an implementation-defined (and per-process randomised) deterministic
function; every claim about it depends only on determinism, never on the
value, so it is modelled as a concrete polynomial hash. -/
def pyHashAbs (s : String) : Nat :=
  s.data.foldl (fun a c => (a * 1000003 + c.toNat) % 2305843009213693951) 5381

/-! ## The candidate record shape consumed by `_cleanExtractedData` -/

/-- One entry of the `order_details` list, when it is a mapping.  Field order
mirrors the dictionary literal in `_cleanExtractedData`. -/
structure CandItem where
  product_name : Option PyVal
  product_code : Option PyVal
  quantity : Option PyVal
  unit_price : Option PyVal
  line_total : Option PyVal
  description : Option PyVal
deriving DecidableEq

/-- An entry of `order_details`: a mapping, or any non-mapping value (which
`_cleanExtractedData` silently skips via its `isinstance(detail, dict)` test). -/
inductive CandDetail where
  | dict (item : CandItem)
  | nondict
deriving DecidableEq

/-- The value held under the `order_details` key: a list, or any non-list
value (which fails the `isinstance(details, list)` test). -/
inductive PyDetails where
  | list (items : List CandDetail)
  | nonlist
deriving DecidableEq

/-- The loosely typed candidate mapping passed to `_cleanExtractedData`.
`none` models a missing dictionary key. -/
structure Candidate where
  customer_name : Option PyVal
  customer_email : Option PyVal
  order_date : Option PyVal
  invoice_number : Option PyVal
  total_amount : Option PyVal
  tax_amount : Option PyVal
  shipping_address : Option PyVal
  billing_address : Option PyVal
  order_details : Option PyDetails
deriving DecidableEq

/-- A candidate with every key absent. -/
def emptyCand : Candidate := ⟨none, none, none, none, none, none, none, none, none⟩

/-- An `order_details` entry with every key absent. -/
def emptyItem : CandItem := ⟨none, none, none, none, none, none⟩

/-- `data.get("order_details", [])` followed by the `isinstance(..., list)`
guard: a missing key or a non-list value leaves the loop body unexecuted. -/
def candDetails (data : Candidate) : List CandDetail :=
  match data.order_details with
  | some (.list xs) => xs
  | some .nonlist => []
  | none => []

/-- A cleaned line item as built by `_cleanExtractedData` (llm_service.py
lines 462-472). -/
structure CleanedItem where
  product_name : PyVal
  product_code : PyVal
  quantity : ℤ
  unit_price : ℚ
  line_total : ℚ
  description : PyVal
deriving DecidableEq

/-- The cleaned record returned by `_cleanExtractedData`. -/
structure Cleaned where
  customer_name : PyVal
  customer_email : PyVal
  order_date : PyVal
  invoice_number : PyVal
  total_amount : ℚ
  tax_amount : ℚ
  shipping_address : PyVal
  billing_address : PyVal
  order_details : List CleanedItem
deriving DecidableEq

/-- Rendering of a `PyVal` used only to model `str(data)` as a hash seed. -/
def reprPyVal : PyVal → String
  | .vnum q => toString q
  | .vstr s => s
  | .vbool b => toString b
  | .vnone => "None"

/-- Rendering of an optional value for `reprCandidate`. -/
def reprOptVal : Option PyVal → String
  | none => "?"
  | some v => reprPyVal v

/-- Rendering of an `order_details` entry for `reprCandidate`. -/
def reprDetail : CandDetail → String
  | .dict i =>
      reprOptVal i.product_name ++ "," ++ reprOptVal i.product_code ++ "," ++
      reprOptVal i.quantity ++ "," ++ reprOptVal i.unit_price ++ "," ++
      reprOptVal i.line_total ++ "," ++ reprOptVal i.description
  | .nondict => "!"

/-- Models Python `str(data)`, used by `_cleanExtractedData` only as the seed
of the default invoice number hash.  The exact rendering is irrelevant to
every claim (only determinism matters), so a simple concatenation is used. -/
def reprCandidate (data : Candidate) : String :=
  reprOptVal data.customer_name ++ ";" ++ reprOptVal data.customer_email ++ ";" ++
  reprOptVal data.order_date ++ ";" ++ reprOptVal data.invoice_number ++ ";" ++
  reprOptVal data.total_amount ++ ";" ++ reprOptVal data.tax_amount ++ ";" ++
  reprOptVal data.shipping_address ++ ";" ++ reprOptVal data.billing_address ++ ";" ++
  (match data.order_details with
   | some (.list xs) => String.join (xs.map reprDetail)
   | some .nonlist => "L"
   | none => "?")

/-- `f"INV-{abs(hash(str(data))) % 10000:04d}"`, the default invoice number
in `_cleanExtractedData`. -/
def defaultInvoiceNumber (data : Candidate) : String :=
  "INV-" ++ pad4 (pyHashAbs (reprCandidate data) % 10000)

/-- The per-item body of the `order_details` loop in `_cleanExtractedData`:
coerces `quantity` with `int`, `unit_price`/`line_total` with `float`
(defaults 1 / 0.0 / 0.0), then recomputes `line_total` as
`quantity * unit_price` when the coerced `line_total` is exactly 0.
`none` models an escaping coercion exception. -/
def cleanItem (d : CandItem) : Option CleanedItem :=
  match pyInt (Option.getD d.quantity (.vnum 1)),
        pyFloat (Option.getD d.unit_price (.vnum 0)),
        pyFloat (Option.getD d.line_total (.vnum 0)) with
  | some q, some u, some lt =>
      some ⟨Option.getD d.product_name (.vstr "Unknown Product"),
            Option.getD d.product_code (.vstr ""),
            q, u,
            (if lt = 0 then (q : ℚ) * u else lt),
            Option.getD d.description (.vstr "")⟩
  | _, _, _ => none

/-- The `order_details` loop of `_cleanExtractedData`: non-mapping entries
are skipped, the first coercion exception aborts the whole call. -/
def cleanItems : List CandDetail → Option (List CleanedItem)
  | [] => some []
  | .nondict :: rest => cleanItems rest
  | .dict d :: rest =>
      match cleanItem d, cleanItems rest with
      | some c, some cs => some (c :: cs)
      | _, _ => none

/-- Sum of the cleaned line totals (`sum(d["line_total"] for d in ...)`). -/
def sumLineTotals (items : List CleanedItem) : ℚ :=
  (items.map (fun i => i.line_total)).sum

/-- `_cleanExtractedData` (llm_service.py lines 444-480).  Applies the
field defaults, coerces the numeric fields, cleans the line items, and
recomputes the header `total_amount` as `sum(line_total) + tax_amount`
when the coerced total is exactly 0 and at least one cleaned line item
exists.  `none` models an escaping coercion exception. -/
def clean (data : Candidate) : Option Cleaned :=
  match pyFloat (Option.getD data.total_amount (.vnum 0)),
        pyFloat (Option.getD data.tax_amount (.vnum 0)),
        cleanItems (candDetails data) with
  | some total, some tax, some items =>
      some ⟨Option.getD data.customer_name (.vstr "Unknown Customer"),
            Option.getD data.customer_email (.vstr ""),
            Option.getD data.order_date (.vstr ""),
            Option.getD data.invoice_number (.vstr (defaultInvoiceNumber data)),
            (if total = 0 ∧ items ≠ [] then sumLineTotals items + tax else total),
            tax,
            Option.getD data.shipping_address (.vstr ""),
            Option.getD data.billing_address (.vstr ""),
            items⟩
  | _, _, _ => none

/-- Re-injection of a cleaned line item into the loosely typed shape, for
stating idempotence of `clean`. -/
def candOfCleanedItem (c : CleanedItem) : CandItem :=
  ⟨some c.product_name, some c.product_code, some (.vnum (c.quantity : ℚ)),
   some (.vnum c.unit_price), some (.vnum c.line_total), some c.description⟩

/-- Re-injection of a cleaned record into the loosely typed candidate shape. -/
def candOfCleaned (r : Cleaned) : Candidate :=
  ⟨some r.customer_name, some r.customer_email, some r.order_date,
   some r.invoice_number, some (.vnum r.total_amount), some (.vnum r.tax_amount),
   some r.shipping_address, some r.billing_address,
   some (.list (r.order_details.map (fun c => .dict (candOfCleanedItem c))))⟩

/-! ## Dates: the `datetime.strptime` formats used by the repository -/

/-- A calendar date as produced by `datetime.strptime(...).date()`. -/
structure PyDate where
  year : Nat
  month : Nat
  day : Nat
deriving DecidableEq

/-- Gregorian leap-year test (Python `datetime` validates day-of-month). -/
def isLeap (y : Nat) : Bool := (y % 4 = 0 && y % 100 ≠ 0) || y % 400 = 0

/-- Days in a month, as validated by `datetime`. -/
def daysInMonth (y m : Nat) : Nat :=
  if m = 2 then (if isLeap y then 29 else 28)
  else if m = 4 || m = 6 || m = 9 || m = 11 then 30
  else 31

/-- Take exactly `n` characters when all are decimal digits. -/
def takeDigits (n : Nat) (cs : List Char) : Option (List Char × List Char) :=
  let g := cs.take n
  if g.length = n && g.all Char.isDigit then some (g, cs.drop n) else none

/-- First alternative of a list that makes the continuation succeed; this is
how the embedded regular expressions realise ordered-alternation
backtracking. -/
def firstSome : List α → (α → Option β) → Option β
  | [], _ => none
  | a :: rest, f =>
      match f a with
      | some b => some b
      | none => firstSome rest f

/-- CPython `_strptime` directive `%Y`: exactly four digits. -/
def altY (cs : List Char) : List (Nat × List Char) :=
  match takeDigits 4 cs with
  | some (g, r) => [(digitsToNat g, r)]
  | none => []

/-- CPython `_strptime` directive `%m`: the pattern `1[0-2]|0[1-9]|[1-9]`,
alternatives in source order. -/
def altM (cs : List Char) : List (Nat × List Char) :=
  (match cs with
   | c1 :: c2 :: r =>
       (if c1 = '1' && ('0' ≤ c2 && c2 ≤ '2') then [(10 + (c2.toNat - 48), r)] else []) ++
       (if c1 = '0' && ('1' ≤ c2 && c2 ≤ '9') then [(c2.toNat - 48, r)] else [])
   | _ => []) ++
  (match cs with
   | c1 :: r => if '1' ≤ c1 && c1 ≤ '9' then [(c1.toNat - 48, r)] else []
   | [] => [])

/-- CPython `_strptime` directive `%d`: the pattern
`3[01]|[12]\d|0[1-9]|[1-9]`, alternatives in source order. -/
def altD (cs : List Char) : List (Nat × List Char) :=
  (match cs with
   | c1 :: c2 :: r =>
       (if c1 = '3' && ('0' ≤ c2 && c2 ≤ '1') then [(30 + (c2.toNat - 48), r)] else []) ++
       (if ('1' ≤ c1 && c1 ≤ '2') && c2.isDigit
        then [((c1.toNat - 48) * 10 + (c2.toNat - 48), r)] else []) ++
       (if c1 = '0' && ('1' ≤ c2 && c2 ≤ '9') then [(c2.toNat - 48, r)] else [])
   | _ => []) ++
  (match cs with
   | c1 :: r => if '1' ≤ c1 && c1 ≤ '9' then [(c1.toNat - 48, r)] else []
   | [] => [])

/-- Match `directive sep directive sep directive` against the whole string,
with backtracking over each directive's alternatives; every format the
repository passes to `strptime` has this shape. -/
def runFmt3 (a b c : List Char → List (Nat × List Char)) (sep : Char)
    (cs : List Char) : Option (Nat × Nat × Nat) :=
  firstSome (a cs) fun p1 =>
    match p1 with
    | (v1, r1) =>
      match r1 with
      | s1 :: r2 =>
        if s1 = sep then
          firstSome (b r2) fun p2 =>
            match p2 with
            | (v2, r3) =>
              match r3 with
              | s2 :: r4 =>
                if s2 = sep then
                  firstSome (c r4) fun p3 =>
                    match p3 with
                    | (v3, r5) => if r5 = [] then some (v1, v2, v3) else none
                else none
              | [] => none
        else none
      | [] => none

/-- `datetime` construction: validates the ranges `strptime` itself leaves
to the `datetime` constructor. -/
def mkDateChecked (y m d : Nat) : Option PyDate :=
  if 1 ≤ y && y ≤ 9999 && 1 ≤ m && m ≤ 12 && 1 ≤ d && d ≤ daysInMonth y m
  then some ⟨y, m, d⟩ else none

/-- `strptime(s, '%Y-%m-%d')`. -/
def strpYmd (cs : List Char) : Option PyDate :=
  (runFmt3 altY altM altD '-' cs).bind fun t =>
    match t with | (y, m, d) => mkDateChecked y m d

/-- `strptime(s, '%d<sep>%m<sep>%Y')`. -/
def strpDmY (sep : Char) (cs : List Char) : Option PyDate :=
  (runFmt3 altD altM altY sep cs).bind fun t =>
    match t with | (d, m, y) => mkDateChecked y m d

/-- `strptime(s, '%m<sep>%d<sep>%Y')`. -/
def strpMdY (sep : Char) (cs : List Char) : Option PyDate :=
  (runFmt3 altM altD altY sep cs).bind fun t =>
    match t with | (m, d, y) => mkDateChecked y m d

/-- The format cascade in `routes.processDocument` (lines 131-136):
`'%Y-%m-%d', '%d/%m/%Y', '%m/%d/%Y', '%d-%m-%Y', '%m-%d-%Y'`, first
success wins; `none` means every format raised `ValueError`. -/
def tryFormatsRoutes (s : String) : Option PyDate :=
  firstSome [strpYmd, strpDmY '/', strpMdY '/', strpDmY '-', strpMdY '-']
    (fun f => f s.data)

/-- The format cascade in `_localExtraction` (line 428):
`'%m/%d/%Y', '%d/%m/%Y', '%m-%d-%Y', '%Y-%m-%d', '%d-%m-%Y'`. -/
def tryFormatsLocal (s : String) : Option PyDate :=
  firstSome [strpMdY '/', strpDmY '/', strpMdY '-', strpYmd, strpDmY '-']
    (fun f => f s.data)

/-- `dt.strftime('%Y-%m-%d')`. -/
def isoOfDate (d : PyDate) : String :=
  pad4 d.year ++ "-" ++ pad2 d.month ++ "-" ++ pad2 d.day

/-! ## The `_localExtraction` regular expressions

Each of the four patterns of `_localExtraction` is embedded as a
specialised matcher with the same ordered-alternation and greedy
(give-back) backtracking semantics as the Python `re` engine, and
`re.findall` is the usual leftmost, non-overlapping scan. -/

/-- ASCII lowering, for the `re.IGNORECASE` flag. -/
def toLowerCh (c : Char) : Char :=
  if 'A' ≤ c && c ≤ 'Z' then Char.ofNat (c.toNat + 32) else c

/-- Case-insensitive literal keyword at the head of the input; the keyword is
given in lowercase. -/
def kwAt (kw : List Char) (cs : List Char) : Option (List Char) :=
  if (cs.take kw.length).map toLowerCh = kw then some (cs.drop kw.length) else none

/-- `[hi, hi-1, ..., lo]` — the order in which a greedy bounded repetition
yields its lengths while backtracking. -/
def countdown (hi lo : Nat) : List Nat := (List.range' lo (hi + 1 - lo)).reverse

/-- The `re.findall` scan: leftmost match wins, scanning resumes after each
(non-empty) match, otherwise advances one character.  Fuel is the input
length; every embedded match consumes at least one character. -/
def scanAll (tryAt : List Char → Option (String × List Char)) :
    Nat → List Char → List String
  | 0, _ => []
  | _ + 1, [] => []
  | fuel + 1, c :: rest =>
      match tryAt (c :: rest) with
      | some (g, after) => g :: scanAll tryAt fuel after
      | none => scanAll tryAt fuel rest

/-- Character class `[\s#:]` of the invoice-number pattern. -/
def isSepInv (c : Char) : Bool := isPyWs c || c = '#' || c = ':'

/-- Character class `[A-Z0-9\-_]` under `re.IGNORECASE`. -/
def isCapInv (c : Char) : Bool := c.isAlpha || c.isDigit || c = '-' || c = '_'

/-- One match attempt of
`(?:invoice|inv|number|#)[\s#:]*([A-Z0-9\-_]{3,20})` at the head of the
input.  The separator and capture classes are disjoint, so the greedy
separator run never needs to give characters back; keyword alternatives are
tried in source order. -/
def invTryAt (cs : List Char) : Option (String × List Char) :=
  firstSome ["invoice".data, "inv".data, "number".data, "#".data] fun kw =>
    (kwAt kw cs).bind fun rest =>
      let rest2 := rest.dropWhile isSepInv
      let run := rest2.takeWhile isCapInv
      if 3 ≤ run.length then
        let g := run.take 20
        some (String.mk g, rest2.drop g.length)
      else none

/-- `re.findall` for the invoice-number pattern. -/
def findallInvoiceNumber (s : String) : List String :=
  scanAll invTryAt (s.data.length + 1) s.data

/-- Character class `[\s:$]` of the total-amount pattern. -/
def isSepTot (c : Char) : Bool := isPyWs c || c = ':' || c = '$'

/-- One match attempt of
`(?:total|amount|due|balance)[\s:$]*([\d,]+\.?\d{0,2})` at the head. -/
def totTryAt (cs : List Char) : Option (String × List Char) :=
  firstSome ["total".data, "amount".data, "due".data, "balance".data] fun kw =>
    (kwAt kw cs).bind fun rest =>
      let rest2 := rest.dropWhile isSepTot
      let ds := rest2.takeWhile (fun c => c.isDigit || c = ',')
      if ds = [] then none
      else
        match rest2.drop ds.length with
        | '.' :: r4 =>
            let fr := (r4.takeWhile Char.isDigit).take 2
            some (String.mk (ds ++ '.' :: fr), r4.drop fr.length)
        | r3 => some (String.mk ds, r3)

/-- `re.findall` for the total-amount pattern. -/
def findallTotalAmount (s : String) : List String :=
  scanAll totTryAt (s.data.length + 1) s.data

/-- Character class `[\s:]` of the order-date pattern. -/
def isSepDate (c : Char) : Bool := isPyWs c || c = ':'

/-- The class `[/\-]` separating the digit groups of the date capture. -/
def isDateSepCh (c : Char) : Bool := c = '/' || c = '-'

/-- The capture `([\d]{1,2}[/\-][\d]{1,2}[/\-][\d]{2,4})` with greedy
backtracking over each bounded digit repetition. -/
def dateCapAt (cs : List Char) : Option (List Char × List Char) :=
  firstSome [2, 1] fun n1 =>
    (takeDigits n1 cs).bind fun p1 =>
      match p1 with
      | (g1, r1) =>
        match r1 with
        | s1 :: r2 =>
          if isDateSepCh s1 then
            firstSome [2, 1] fun n2 =>
              (takeDigits n2 r2).bind fun p2 =>
                match p2 with
                | (g2, r3) =>
                  match r3 with
                  | s2 :: r4 =>
                    if isDateSepCh s2 then
                      firstSome [4, 3, 2] fun n3 =>
                        (takeDigits n3 r4).bind fun p3 =>
                          match p3 with
                          | (g3, r5) => some (g1 ++ s1 :: (g2 ++ s2 :: g3), r5)
                    else none
                  | [] => none
          else none
        | [] => none

/-- One match attempt of
`(?:date|invoice date|order date)[\s:]*(<date capture>)` at the head. -/
def dateTryAt (cs : List Char) : Option (String × List Char) :=
  firstSome ["date".data, "invoice date".data, "order date".data] fun kw =>
    (kwAt kw cs).bind fun rest =>
      let rest2 := rest.dropWhile isSepDate
      (dateCapAt rest2).map fun p =>
        match p with
        | (g, r) => (String.mk g, r)

/-- `re.findall` for the order-date pattern. -/
def findallOrderDate (s : String) : List String :=
  scanAll dateTryAt (s.data.length + 1) s.data

/-- Character class `[:\s]` of the customer-name pattern. -/
def isSepName (c : Char) : Bool := c = ':' || isPyWs c

/-- Character class `[A-Za-z\s\.]` of the customer-name capture. -/
def isCapName (c : Char) : Bool := c.isAlpha || isPyWs c || c = '.'

/-- The capture-and-suffix step of the customer-name pattern:
`([A-Za-z\s\.]{3,50})(?:\n|$)`.  The greedy capture gives characters back
until the next position holds a newline (consumed by the `\n` branch) or
the end of the input (the `$` branch, `re.MULTILINE`). -/
def nameCapAt (cs : List Char) : Option (String × List Char) :=
  let run := (cs.takeWhile isCapName).length
  firstSome (countdown (min run 50) 3) fun k =>
    match cs.drop k with
    | [] => some (String.mk (cs.take k), [])
    | '\n' :: r => some (String.mk (cs.take k), r)
    | _ => none

/-- One match attempt of
`(?:customer|client|bill to|sold to|name)[:\s]*([A-Za-z\s\.]{3,50})(?:\n|$)`
at the head.  The separator and capture classes overlap on whitespace, so
the greedy separator run also backtracks. -/
def nameTryAt (cs : List Char) : Option (String × List Char) :=
  firstSome ["customer".data, "client".data, "bill to".data, "sold to".data,
             "name".data] fun kw =>
    (kwAt kw cs).bind fun rest =>
      firstSome (countdown ((rest.takeWhile isSepName).length) 0) fun j =>
        nameCapAt (rest.drop j)

/-- `re.findall` for the customer-name pattern. -/
def findallCustomerName (s : String) : List String :=
  scanAll nameTryAt (s.data.length + 1) s.data

/-! ## `_localExtraction` (llm_service.py lines 394-442) -/

/-- `text.replace(',', '')` as applied to the matched amount. -/
def stripCommas (s : String) : String :=
  String.mk (s.data.filter (fun c => c ≠ ','))

/-- The deterministic invoice-number placeholder
`f"INV-{abs(hash(text)) % 10000:04d}"`. -/
def invPlaceholder (text : String) : String :=
  "INV-" ++ pad4 (pyHashAbs text % 10000)

/-- The initial dictionary of `_localExtraction`. -/
def localBase (text : String) : Candidate :=
  ⟨some (.vstr ""), some (.vstr ""), some (.vstr ""),
   some (.vstr (invPlaceholder text)), some (.vnum 0), some (.vnum 0),
   some (.vstr ""), some (.vstr ""), some (.list [])⟩

/-- `customer_name`: first match, trimmed. -/
def applyNameMatch (text : String) (c : Candidate) : Candidate :=
  match findallCustomerName text with
  | [] => c
  | m :: _ => { c with customer_name := some (.vstr (pyStrip m)) }

/-- `invoice_number`: first match, trimmed; otherwise the hash placeholder
already present stays. -/
def applyInvMatch (text : String) (c : Candidate) : Candidate :=
  match findallInvoiceNumber text with
  | [] => c
  | m :: _ => { c with invoice_number := some (.vstr (pyStrip m)) }

/-- `total_amount`: last match, thousands separators removed, `float`-parsed;
a parse failure leaves the field untouched (`except: pass`). -/
def applyTotMatch (text : String) (c : Candidate) : Candidate :=
  match (findallTotalAmount text).getLast? with
  | none => c
  | some m =>
      match pyFloatOfString (stripCommas m) with
      | some q => { c with total_amount := some (.vnum q) }
      | none => c

/-- `order_date`: last match, trimmed, tried against the local format list;
normalised to ISO on success, kept verbatim otherwise. -/
def applyDateMatch (text : String) (c : Candidate) : Candidate :=
  match (findallOrderDate text).getLast? with
  | none => c
  | some m =>
      let ds := pyStrip m
      match tryFormatsLocal ds with
      | some d => { c with order_date := some (.vstr (isoOfDate d)) }
      | none => { c with order_date := some (.vstr ds) }

/-- `_localExtraction`: the rule-based fallback extractor.  Patterns are
applied in the dictionary order of the source (`customer_name`,
`invoice_number`, `total_amount`, `order_date`). -/
def localExtraction (text : String) : Candidate :=
  applyDateMatch text (applyTotMatch text (applyInvMatch text
    (applyNameMatch text (localBase text))))

/-! ## JSON: a model of `json.loads` sufficient for `_parseJsonResponse` -/

mutual

/-- A parsed JSON value.  Numbers are modelled exactly as rationals; object
member order is preserved.  The array/object spines are their own inductive
types (`JArr`, `JMembers`) rather than `List`, purely so that equality
stays derivable. -/
inductive JValue where
  | jnull
  | jbool (b : Bool)
  | jnum (q : ℚ)
  | jstr (s : String)
  | jarr (elems : JArr)
  | jobj (members : JMembers)
deriving DecidableEq

/-- The elements of a JSON array. -/
inductive JArr where
  | nil
  | cons (v : JValue) (rest : JArr)
deriving DecidableEq

/-- The key–value members of a JSON object, in source order. -/
inductive JMembers where
  | nil
  | cons (key : String) (v : JValue) (rest : JMembers)
deriving DecidableEq

end

/-- JSON insignificant whitespace. -/
def isJsonWs (c : Char) : Bool := c = ' ' || c = '\t' || c = '\n' || c = '\x0d'

/-- Skip JSON whitespace. -/
def skipWsJ (cs : List Char) : List Char := cs.dropWhile isJsonWs

/-- Value of a hexadecimal digit, if any. -/
def hexVal (c : Char) : Option Nat :=
  if '0' ≤ c && c ≤ '9' then some (c.toNat - 48)
  else if 'a' ≤ c && c ≤ 'f' then some (c.toNat - 87)
  else if 'A' ≤ c && c ≤ 'F' then some (c.toNat - 55)
  else none

/-- Body of a JSON string after the opening quote: plain characters above
U+001F, the standard escapes, and `\uXXXX` (surrogate pairing is not
modelled; no claim exercises it). -/
def jstringChars : Nat → List Char → Option (List Char × List Char)
  | 0, _ => none
  | _ + 1, [] => none
  | fuel + 1, c :: r =>
      if c = '"' then some ([], r)
      else if c = '\\' then
        match r with
        | [] => none
        | e :: r2 =>
            let plain : Char → Option Char := fun x =>
              if x = '"' || x = '\\' || x = '/' then some x
              else if x = 'b' then some '\x08'
              else if x = 'f' then some '\x0c'
              else if x = 'n' then some '\n'
              else if x = 'r' then some '\x0d'
              else if x = 't' then some '\t'
              else none
            match plain e with
            | some ch =>
                (jstringChars fuel r2).map (fun p =>
                  match p with | (cs2, rest) => (ch :: cs2, rest))
            | none =>
                if e = 'u' then
                  match r2 with
                  | h1 :: h2 :: h3 :: h4 :: r3 =>
                      match hexVal h1, hexVal h2, hexVal h3, hexVal h4 with
                      | some a, some b, some c2, some d =>
                          (jstringChars fuel r3).map (fun p =>
                            match p with
                            | (cs2, rest) =>
                              (Char.ofNat (((a * 16 + b) * 16 + c2) * 16 + d) :: cs2, rest))
                      | _, _, _, _ => none
                  | _ => none
                else none
      else if c.toNat < 32 then none
      else (jstringChars fuel r).map (fun p =>
        match p with | (cs2, rest) => (c :: cs2, rest))

/-- A JSON number: optional minus, integer part, optional fraction and
exponent.  (A leading-zero violation such as `01` simply terminates the
number early, and the leftover digit then fails the surrounding grammar,
exactly as in `json.loads`.) -/
def parseJNumber (cs : List Char) : Option (ℚ × List Char) :=
  let (neg, cs1) :=
    match cs with
    | '-' :: r => (true, r)
    | r => (false, r)
  let ds := cs1.takeWhile Char.isDigit
  if ds = [] then none
  else
    let r1 := cs1.dropWhile Char.isDigit
    let base : ℚ := (digitsToNat ds : ℚ)
    let (withFrac, r2) :=
      match r1 with
      | '.' :: rf =>
          let fr := rf.takeWhile Char.isDigit
          if fr = [] then (none, r1)
          else (some (base + (digitsToNat fr : ℚ) / (10 : ℚ) ^ fr.length),
                rf.dropWhile Char.isDigit)
      | _ => (some base, r1)
    match withFrac with
    | none => none
    | some v =>
        let signed := if neg then -v else v
        match r2 with
        | e :: r3 =>
            if e = 'e' || e = 'E' then
              let (esg, r4) :=
                match r3 with
                | '+' :: rr => ((1 : ℤ), rr)
                | '-' :: rr => ((-1 : ℤ), rr)
                | rr => ((1 : ℤ), rr)
              let eds := r4.takeWhile Char.isDigit
              if eds = [] then none
              else if esg = 1 then
                some (signed * (10 : ℚ) ^ digitsToNat eds, r4.dropWhile Char.isDigit)
              else
                some (signed / (10 : ℚ) ^ digitsToNat eds, r4.dropWhile Char.isDigit)
            else some (signed, r2)
        | [] => some (signed, r2)

mutual

/-- Recursive-descent JSON value parser (fuel-indexed). -/
def parseJValue : Nat → List Char → Option (JValue × List Char)
  | 0, _ => none
  | fuel + 1, cs =>
      match skipWsJ cs with
      | 'n' :: 'u' :: 'l' :: 'l' :: r => some (.jnull, r)
      | 't' :: 'r' :: 'u' :: 'e' :: r => some (.jbool true, r)
      | 'f' :: 'a' :: 'l' :: 's' :: 'e' :: r => some (.jbool false, r)
      | '"' :: r =>
          (jstringChars (r.length + 1) r).map (fun p =>
            match p with | (cs2, rest) => (.jstr (String.mk cs2), rest))
      | '\x7b' :: r =>
          (match skipWsJ r with
           | '\x7d' :: r2 => some (.jobj .nil, r2)
           | r2 =>
               (parseJMembers fuel r2).map (fun p =>
                 match p with | (ms, rest) => (.jobj ms, rest)))
      | '[' :: r =>
          (match skipWsJ r with
           | ']' :: r2 => some (.jarr .nil, r2)
           | r2 =>
               (parseJElems fuel r2).map (fun p =>
                 match p with | (es, rest) => (.jarr es, rest)))
      | csv => (parseJNumber csv).map (fun p =>
          match p with | (q, rest) => (.jnum q, rest))

/-- Members of a JSON object after the opening brace (first member expected). -/
def parseJMembers : Nat → List Char → Option (JMembers × List Char)
  | 0, _ => none
  | fuel + 1, cs =>
      match skipWsJ cs with
      | '"' :: r =>
          (jstringChars (r.length + 1) r).bind (fun p =>
            match p with
            | (kcs, r2) =>
              match skipWsJ r2 with
              | ':' :: r3 =>
                  (parseJValue fuel r3).bind (fun pv =>
                    match pv with
                    | (v, r4) =>
                      match skipWsJ r4 with
                      | ',' :: r5 =>
                          (parseJMembers fuel r5).map (fun pm =>
                            match pm with
                            | (ms, rest) => (.cons (String.mk kcs) v ms, rest))
                      | '\x7d' :: r5 => some (.cons (String.mk kcs) v .nil, r5)
                      | _ => none)
              | _ => none)
      | _ => none

/-- Elements of a JSON array after the opening bracket (first element
expected). -/
def parseJElems : Nat → List Char → Option (JArr × List Char)
  | 0, _ => none
  | fuel + 1, cs =>
      (parseJValue fuel cs).bind (fun pv =>
        match pv with
        | (v, r) =>
          match skipWsJ r with
          | ',' :: r2 =>
              (parseJElems fuel r2).map (fun pe =>
                match pe with | (es, rest) => (.cons v es, rest))
          | ']' :: r2 => some (.cons v .nil, r2)
          | _ => none)

end

/-- `json.loads`: parse one value and require only whitespace after it. -/
def pyJsonLoads (cs : List Char) : Option JValue :=
  match parseJValue (cs.length + 1) cs with
  | some (v, rest) => if skipWsJ rest = [] then some v else none
  | none => none

/-! ## `_parseJsonResponse` (llm_service.py lines 313-352) -/

/-- Result of `_parseJsonResponse`: either the parsed value or the error
dictionary `("error", "raw_response")`.  The exception text interpolated
into the `Failed to parse JSON` message is elided. -/
inductive JsonParseResult where
  | ok (value : JValue)
  | err (msg : String) (rawPreview : String)
deriving DecidableEq

/-- First index at which `needle` occurs in `hay` (`str.find`, `none` for
Python's `-1`). -/
def findSub (needle : List Char) : List Char → Option Nat
  | [] => if needle = [] then some 0 else none
  | c :: rest =>
      if needle.isPrefixOf (c :: rest) then some 0
      else (findSub needle rest).map (· + 1)

/-- All indices at which `needle` occurs. -/
def allSubIdx (needle : List Char) : List Char → List Nat
  | [] => if needle = [] then [0] else []
  | c :: rest =>
      let tail := (allSubIdx needle rest).map (· + 1)
      if needle.isPrefixOf (c :: rest) then 0 :: tail else tail

/-- Last index at which `needle` occurs (`str.rfind`, `none` for `-1`). -/
def rfindSub (needle : List Char) (hay : List Char) : Option Nat :=
  (allSubIdx needle hay).getLast?

/-- The fence marker. -/
def threeTicks : List Char := "```".data

/-- Stage 1 of `_parseJsonResponse`: `text.strip()` followed by removal of a
leading fenced-block marker. -/
def jrStage1 (cs : List Char) : List Char :=
  let t := pyStripList cs
  if threeTicks.isPrefixOf t then
    match findSub ['\n'] t with
    | some i => pyStripList (t.drop (i + 1))
    | none => pyStripList (t.drop 3)
  else t

/-- Stage 2: removal of a trailing ``` marker. -/
def jrStage2 (cs : List Char) : List Char :=
  if threeTicks.isSuffixOf cs then pyStripList (cs.take (cs.length - 3)) else cs

/-- Stage 3: truncation at the last newline-fence occurrence
(`if "\n```" in text: text = text[:text.rfind("\n```")].strip()`). -/
def jrStage3 (cs : List Char) : List Char :=
  match rfindSub ('\n' :: threeTicks) cs with
  | some i => pyStripList (cs.take i)
  | none => cs

/-- The full pre-processing applied to the model response text. -/
def jrProcess (cs : List Char) : List Char := jrStage3 (jrStage2 (jrStage1 cs))

/-- `text[:200]` of the processed text, the diagnostic preview attached to
every error result. -/
def jrPreview (cs : List Char) : String := String.mk (cs.take 200)

/-- `_parseJsonResponse`: strip fences, slice from the first opening brace
to the last closing brace and parse; when an opening brace exists but no
closing brace, append one closing brace and retry once; otherwise, or when
parsing keeps failing, return the structured error with a bounded preview.
Total by construction — no exception crosses this boundary. -/
def parseJsonResponse (text : String) : JsonParseResult :=
  let t := jrProcess text.data
  match findSub ['\x7b'] t, rfindSub ['\x7d'] t with
  | some s, some e =>
      if s < e then
        match pyJsonLoads ((t.drop s).take (e + 1 - s)) with
        | some v => .ok v
        | none => .err "Failed to parse JSON" (jrPreview t)
      else .err "No valid JSON found in response" (jrPreview t)
  | some s, none =>
      match pyJsonLoads ((t.drop s) ++ ['\x7d']) with
      | some v => .ok v
      | none => .err "No valid JSON found in response" (jrPreview t)
  | none, _ => .err "No valid JSON found in response" (jrPreview t)

/-! ## `extractTextFromPdf` (llm_service.py lines 120-179)

The PyPDF2 text layer and the EasyOCR results are external capabilities and
enter the model as parameters; `none` models the corresponding library call
raising. -/

/-- Environment of one `extractTextFromPdf` call. -/
structure PdfEnv where
  /-- `page.extract_text()` per page, or `none` when PyPDF2 raised. -/
  pageTexts : Option (List String)
  /-- The startup `easyocrAvailable` flag. -/
  easyocrAvailable : Bool
  /-- Joined OCR text per rasterised page, or `none` when
  `pdf2image`/EasyOCR raised. -/
  ocrPages : Option (List String)
deriving DecidableEq

/-- Result of `extractTextFromPdf`, with a marker recording whether the OCR
stage was entered. -/
structure PdfResult where
  text : String
  ocrInvoked : Bool
deriving DecidableEq

/-- The native text-layer concatenation: `text += pageText + "\n"` for each
page with non-empty text. -/
def nativePdfText (pages : List String) : String :=
  pages.foldl (fun acc p => if p ≠ "" then acc ++ p ++ "\n" else acc) ""

/-- The OCR concatenation with page-boundary markers
(`f"--- Page {pageNum} ---\n{pageText}\n"`), pages numbered from 1. -/
def ocrPdfText (pages : List String) : String :=
  (List.zip (List.range' 1 pages.length) pages).foldl
    (fun acc pr =>
      match pr with
      | (i, p) =>
        if p ≠ "" then acc ++ "--- Page " ++ toString i ++ " ---\n" ++ p ++ "\n"
        else acc)
    ""

/-- `extractTextFromPdf`: native text layer first, returned immediately when
longer than 100 characters after trimming; otherwise the OCR stage runs when
available, its result returned under the same threshold; otherwise whatever
partial native text exists (possibly empty). -/
def extractTextFromPdf (env : PdfEnv) : PdfResult :=
  let t := match env.pageTexts with
    | some ps => nativePdfText ps
    | none => ""
  if t ≠ "" ∧ 100 < (pyStrip t).length then ⟨t, false⟩
  else if env.easyocrAvailable then
    match env.ocrPages with
    | some ps =>
        let oc := ocrPdfText ps
        if oc ≠ "" ∧ 100 < (pyStrip oc).length then ⟨oc, true⟩
        else ⟨t, true⟩
    | none => ⟨t, true⟩
  else ⟨t, false⟩

/-! ## `extractInvoiceData` (llm_service.py lines 354-392) -/

/-- What `callLlmApi` produced when invoked: the cleaned-up parse of the
model response as a candidate mapping, or an error dictionary (transport
failure, missing response, or `_parseJsonResponse` error).  The external
model is nondeterministic, so this is a parameter. -/
inductive ApiOutcome where
  | ok (cand : Candidate)
  | apiError (msg : String)
deriving DecidableEq

/-- Environment of one `extractInvoiceData` call. -/
structure LlmEnv where
  /-- What `extractTextFromDocument` returned. -/
  docText : String
  /-- The startup `clientAvailable` flag. -/
  clientAvailable : Bool
  /-- What `callLlmApi` returns when invoked. -/
  apiResult : ApiOutcome
  /-- What `_generateFallbackData` returns (it is randomised, hence a
  parameter; its output always has the cleaned shape). -/
  fallbackRec : Cleaned
deriving DecidableEq

/-- Result of `extractInvoiceData`, mirroring the three dictionary shapes it
returns: success (cleaned record plus `extracted_text_preview`), or the
error dictionary carrying `error`, optionally `fallback_data`, and
optionally `extracted_text_preview`. -/
inductive ExtractResult where
  | success (record : Cleaned) (preview : String)
  | failure (msg : String) (fallback : Option Cleaned) (preview : Option String)
deriving DecidableEq

/-- `documentText[:500]`. -/
def take500 (s : String) : String := String.mk (s.data.take 500)

/-- The rule-based fallback leg of `extractInvoiceData`: local extraction
then cleaning; an escaping exception is caught by the outer handler, which
returns the error dictionary with synthetic fallback data. -/
def localLeg (env : LlmEnv) : ExtractResult :=
  match clean (localExtraction env.docText) with
  | some r => .success r (take500 env.docText)
  | none => .failure "exception" (some env.fallbackRec) none

/-- `extractInvoiceData`: insufficient text short-circuits to the error
dictionary with fallback data; otherwise the model is tried when available,
its candidate cleaned; on model failure the rule-based leg runs; any
escaping exception is converted to the error dictionary with fallback
data. -/
def extractInvoiceData (env : LlmEnv) : ExtractResult :=
  if env.docText = "" ∨ (pyStrip env.docText).length < 10 then
    .failure "Could not extract sufficient text from document."
      (some env.fallbackRec) (some "")
  else if env.clientAvailable then
    match env.apiResult with
    | .ok cand =>
        match clean cand with
        | some r => .success r (take500 env.docText)
        | none => .failure "exception" (some env.fallbackRec) none
    | .apiError _ => localLeg env
  else localLeg env

/-! ## `processDocument` (routes.py lines 84-201), the job orchestrator -/

/-- The `SalesOrderHeader` row (with its `SalesOrderDetail` children) as
built by `processDocument`; `order_date` is NOT NULL in the schema. -/
structure PersistedOrder where
  customerName : PyVal
  customerEmail : PyVal
  orderDate : PyDate
  invoiceNumber : PyVal
  totalAmount : ℚ
  taxAmount : ℚ
  shippingAddress : PyVal
  billingAddress : PyVal
  statusStr : String
  details : List CleanedItem
deriving DecidableEq

/-- A progress event emitted over the socket channel. -/
inductive Event where
  | processing
  | extracted (data : Cleaned)
  | completed (order : PersistedOrder)
  | errorEv (msg : String)
deriving DecidableEq

/-- The order-date block of `processDocument` (routes.py lines 128-140):
a falsy `order_date` yields the current date; a truthy non-string raises
`TypeError`, caught by the `except Exception` arm, which also yields the
current date; a truthy string is tried against the format cascade — but a
string matching no format leaves the date `None`, because each
`ValueError` is consumed by the inner `except ValueError: continue` and
the outer `except Exception` arm never fires for it. -/
def parseOrderDateField (v : PyVal) (today : PyDate) : Option PyDate :=
  if pyTruthy v then
    match v with
    | .vstr s => tryFormatsRoutes s
    | _ => some today
  else some today

/-- The header row built from the record dictionary. -/
def mkOrder (data : Cleaned) (d : PyDate) : PersistedOrder :=
  ⟨data.customer_name, data.customer_email, d, data.invoice_number,
   data.total_amount, data.tax_amount, data.shipping_address,
   data.billing_address, "extracted", data.order_details⟩

/-- The persistence phase of `processDocument`: emit `extracted` with the
record, insert header and details and commit; a `None` order date violates
the NOT NULL constraint, and any storage failure rolls the transaction back
and emits a terminal `error` instead of `completed`. -/
def persistPhase (data : Cleaned) (dbOk : Bool) (today : PyDate) :
    List Event × Option PersistedOrder :=
  match parseOrderDateField data.order_date today with
  | none => ([.processing, .extracted data, .errorEv "Database error"], none)
  | some d =>
      if dbOk then
        ([.processing, .extracted data, .completed (mkOrder data d)],
         some (mkOrder data d))
      else ([.processing, .extracted data, .errorEv "Database error"], none)

/-- `processDocument`: emits `processing`, runs extraction, handles the
error-without-fallback case with a terminal `error`, substitutes the
fallback record when present, and otherwise proceeds to emit `extracted`
and persist whichever record it holds.  Returns the emitted event sequence
and the committed row, if any. -/
def processDocument (ext : ExtractResult) (dbOk : Bool) (today : PyDate) :
    List Event × Option PersistedOrder :=
  match ext with
  | .failure msg none _ => ([.processing, .errorEv msg], none)
  | .failure _ (some fb) _ => persistPhase fb dbOk today
  | .success rec _ => persistPhase rec dbOk today

/-- Status of an event, for talking about terminal states. -/
def eventStatus : Event → String
  | .processing => "processing"
  | .extracted _ => "extracted"
  | .completed _ => "completed"
  | .errorEv _ => "error"

/-- The terminal status of a job run. -/
def finalStatus (evs : List Event) : Option String :=
  evs.getLast?.map eventStatus

/-! ## Shared helper lemmas -/

/-- `int()` of a Python float that holds an integer is that integer. -/
theorem pyInt_vnum_intCast (n : ℤ) : pyInt (.vnum (n : ℚ)) = some n := by
  simp [pyInt, ratTruncToInt]

/-- Inversion for `cleanItem`: a successful cleaning exhibits the three
coerced numeric values and determines every output field. -/
theorem cleanItem_some_spec (d : CandItem) (ci : CleanedItem)
    (h : cleanItem d = some ci) :
    ∃ q u lt, pyInt (Option.getD d.quantity (.vnum 1)) = some q ∧
      pyFloat (Option.getD d.unit_price (.vnum 0)) = some u ∧
      pyFloat (Option.getD d.line_total (.vnum 0)) = some lt ∧
      ci = ⟨Option.getD d.product_name (.vstr "Unknown Product"),
            Option.getD d.product_code (.vstr ""), q, u,
            (if lt = 0 then (q : ℚ) * u else lt),
            Option.getD d.description (.vstr "")⟩ := by
  cases hq : pyInt (Option.getD d.quantity (.vnum 1)) with
  | none => simp only [cleanItem, hq] at h; exact Option.noConfusion h
  | some q =>
      cases hu : pyFloat (Option.getD d.unit_price (.vnum 0)) with
      | none => simp only [cleanItem, hq, hu] at h; exact Option.noConfusion h
      | some u =>
          cases hlt : pyFloat (Option.getD d.line_total (.vnum 0)) with
          | none => simp only [cleanItem, hq, hu, hlt] at h; exact Option.noConfusion h
          | some lt =>
              simp only [cleanItem, hq, hu, hlt, Option.some.injEq] at h
              exact ⟨q, u, lt, rfl, rfl, rfl, h.symm⟩

/-- Inversion for `clean`: a successful cleaning exhibits the coerced
header totals and the cleaned item list, and determines every output
field. -/
theorem clean_some_spec (data : Candidate) (r : Cleaned)
    (h : clean data = some r) :
    ∃ total tax items,
      pyFloat (Option.getD data.total_amount (.vnum 0)) = some total ∧
      pyFloat (Option.getD data.tax_amount (.vnum 0)) = some tax ∧
      cleanItems (candDetails data) = some items ∧
      r = ⟨Option.getD data.customer_name (.vstr "Unknown Customer"),
           Option.getD data.customer_email (.vstr ""),
           Option.getD data.order_date (.vstr ""),
           Option.getD data.invoice_number (.vstr (defaultInvoiceNumber data)),
           (if total = 0 ∧ items ≠ [] then sumLineTotals items + tax else total),
           tax,
           Option.getD data.shipping_address (.vstr ""),
           Option.getD data.billing_address (.vstr ""), items⟩ := by
  cases htotal : pyFloat (Option.getD data.total_amount (.vnum 0)) with
  | none => simp only [clean, htotal] at h; exact Option.noConfusion h
  | some total =>
      cases htax : pyFloat (Option.getD data.tax_amount (.vnum 0)) with
      | none => simp only [clean, htotal, htax] at h; exact Option.noConfusion h
      | some tax =>
          cases hitems : cleanItems (candDetails data) with
          | none => simp only [clean, htotal, htax, hitems] at h; exact Option.noConfusion h
          | some items =>
              simp only [clean, htotal, htax, hitems, Option.some.injEq] at h
              exact ⟨total, tax, items, rfl, rfl, rfl, h.symm⟩

/-! ## Claim C1 -/

/-- A concrete synthetic fallback record, of the shape
`_generateFallbackData` produces. -/
def fbRecC1 : Cleaned :=
  ⟨.vstr "Sample Customer", .vstr "customer@example.com", .vstr "2024-01-15",
   .vstr "INV-FALLBACK-1234", 300, 0, .vstr "123 Main St, City, State, ZIP",
   .vstr "123 Main St, City, State, ZIP",
   [⟨.vstr "Product XYZ", .vstr "23423423", 2, 150, 300, .vstr "desc"⟩]⟩

/-- Claim C1 is false on the code: at a concrete extraction failure that
carries fallback data, with a healthy database, `processDocument` emits the
fallback record, PERSISTS it, and ends in `completed` — not in an error
state, and not without persistence. -/
theorem c1_counterexample :
    processDocument
        (.failure "Could not extract sufficient text from document."
          (some fbRecC1) (some "")) true ⟨2024, 6, 1⟩
      = ([.processing, .extracted fbRecC1,
          .completed (mkOrder fbRecC1 ⟨2024, 1, 15⟩)],
         some (mkOrder fbRecC1 ⟨2024, 1, 15⟩))
    ∧ (processDocument
        (.failure "Could not extract sufficient text from document."
          (some fbRecC1) (some "")) true ⟨2024, 6, 1⟩).2 ≠ none
    ∧ finalStatus (processDocument
        (.failure "Could not extract sufficient text from document."
          (some fbRecC1) (some "")) true ⟨2024, 6, 1⟩).1 = some "completed" := by
  refine ⟨by decide, by decide, by decide⟩

/-- Claim C1 amended: when extraction fails but a fallback record is
available, the orchestrator emits the fallback record as its extracted-data
event and then persists it exactly as it would a genuine extraction — when
the record's date parses and the storage layer succeeds, the job ends in
`completed` with the fallback record stored; a terminal error without
persistence happens only without fallback data or on storage failure. -/
theorem c1_amended_fallback_persisted (msg : String) (fb : Cleaned)
    (pv : Option String) (today d : PyDate)
    (h : parseOrderDateField fb.order_date today = some d) :
    processDocument (.failure msg (some fb) pv) true today
      = ([.processing, .extracted fb, .completed (mkOrder fb d)],
         some (mkOrder fb d)) := by
  simp [processDocument, persistPhase, h]

/-- Witness for C1: the amended theorem applied at the concrete fallback
record and date. -/
theorem c1_amended_witness :
    processDocument (.failure "exception" (some fbRecC1) none) true ⟨2024, 6, 1⟩
      = ([.processing, .extracted fbRecC1,
          .completed (mkOrder fbRecC1 ⟨2024, 1, 15⟩)],
         some (mkOrder fbRecC1 ⟨2024, 1, 15⟩)) :=
  c1_amended_fallback_persisted "exception" fbRecC1 none ⟨2024, 6, 1⟩
    ⟨2024, 1, 15⟩ (by decide)

/-! ## Claim C2 -/

/-- Claim C2 is false on the code: `clean` is not total.  A candidate whose
`total_amount` holds the non-coercible string `"abc"` makes
`float(data.get("total_amount", 0.0))` raise `ValueError`; the value does
not become 0. -/
theorem c2_counterexample :
    clean { emptyCand with total_amount := some (.vstr "abc") } = none
    ∧ pyFloat (.vstr "abc") = none := by
  refine ⟨by decide, by decide⟩

/-- The coercibility test for one `order_details` entry. -/
def itemOkB (d : CandDetail) : Bool :=
  match d with
  | .nondict => true
  | .dict i =>
      (pyInt (Option.getD i.quantity (.vnum 1))).isSome &&
      (pyFloat (Option.getD i.unit_price (.vnum 0))).isSome &&
      (pyFloat (Option.getD i.line_total (.vnum 0))).isSome

/-- The coercibility test for every numeric field `clean` touches. -/
def numFieldsOk (data : Candidate) : Bool :=
  (pyFloat (Option.getD data.total_amount (.vnum 0))).isSome &&
  (pyFloat (Option.getD data.tax_amount (.vnum 0))).isSome &&
  (candDetails data).all itemOkB

/-- A coercible entry cleans successfully. -/
theorem cleanItem_isSome (d : CandItem) (h : itemOkB (.dict d) = true) :
    (cleanItem d).isSome = true := by
  simp only [itemOkB, Bool.and_eq_true] at h
  obtain ⟨⟨h1, h2⟩, h3⟩ := h
  rw [Option.isSome_iff_exists] at h1 h2 h3
  obtain ⟨q, hq⟩ := h1
  obtain ⟨u, hu⟩ := h2
  obtain ⟨lt, hlt⟩ := h3
  simp [cleanItem, hq, hu, hlt]

/-- A list of coercible entries cleans successfully. -/
theorem cleanItems_isSome (l : List CandDetail) (h : l.all itemOkB = true) :
    (cleanItems l).isSome = true := by
  induction l with
  | nil => simp [cleanItems]
  | cons hd tl ih =>
      rw [List.all_cons, Bool.and_eq_true] at h
      obtain ⟨h1, h2⟩ := h
      cases hd with
      | nondict => simpa [cleanItems] using ih h2
      | dict d =>
          have hi := cleanItem_isSome d h1
          rw [Option.isSome_iff_exists] at hi
          obtain ⟨c, hc⟩ := hi
          have ht := ih h2
          rw [Option.isSome_iff_exists] at ht
          obtain ⟨cs, hcs⟩ := ht
          simp [cleanItems, hc, hcs]

/-- Claim C2 amended: `clean` returns a record for every candidate whose
numeric-typed fields are absent or coercible (numbers, booleans, or numeric
strings); absent numeric fields take their defaults (0, quantity 1).  A
present non-coercible numeric value instead makes `clean` raise
(`c2_counterexample`); it does not become 0. -/
theorem c2_amended_clean_total_on_coercible (data : Candidate)
    (h : numFieldsOk data = true) : (clean data).isSome = true := by
  simp only [numFieldsOk, Bool.and_eq_true] at h
  obtain ⟨⟨h1, h2⟩, h3⟩ := h
  rw [Option.isSome_iff_exists] at h1 h2
  obtain ⟨total, htotal⟩ := h1
  obtain ⟨tax, htax⟩ := h2
  have hi := cleanItems_isSome _ h3
  rw [Option.isSome_iff_exists] at hi
  obtain ⟨items, hitems⟩ := hi
  simp [clean, htotal, htax, hitems]

/-- Witness for C2: the amended theorem applied at a concrete candidate
containing a numeric string, a number and one line item. -/
theorem c2_amended_witness :
    (clean { emptyCand with
               total_amount := some (.vstr "12.50"),
               tax_amount := some (.vnum 1),
               order_details := some (.list [.dict emptyItem]) }).isSome = true :=
  c2_amended_clean_total_on_coercible
    { emptyCand with
        total_amount := some (.vstr "12.50"),
        tax_amount := some (.vnum 1),
        order_details := some (.list [.dict emptyItem]) } (by decide)

/-! ## Claim C3 -/

/-- A record whose `order_date` matched the date regex but parses under no
accepted format (the rule-based extractor keeps such a match verbatim). -/
def recC3 : Cleaned :=
  ⟨.vstr "ACME", .vstr "", .vstr "99/99/9999", .vstr "INV-9", 100, 0,
   .vstr "", .vstr "", []⟩

/-- Claim C3 is right about absent/empty dates but the code is wrong about
unparseable ones: the date-format loop consumes every `ValueError` with
`continue`, so a non-empty unparseable `order_date` leaves the local
variable `None` (the `except Exception` arm that would default it to the
current date is unreachable for parse failures), the NOT NULL `order_date`
column then makes persistence fail, and the job ends in `error` with
nothing stored — instead of storing the record with the current date. -/
theorem c3_unparseable_date_not_stored :
    parseOrderDateField (.vstr "99/99/9999") ⟨2024, 6, 1⟩ = none
    ∧ processDocument (.success recC3 "") true ⟨2024, 6, 1⟩
        = ([.processing, .extracted recC3, .errorEv "Database error"], none)
    ∧ parseOrderDateField (.vstr "") ⟨2024, 6, 1⟩ = some ⟨2024, 6, 1⟩
    ∧ parseOrderDateField .vnone ⟨2024, 6, 1⟩ = some ⟨2024, 6, 1⟩ := by
  refine ⟨by decide, by decide, by decide, by decide⟩

/-! ## Claim C4 -/

/-- Claim C4: when the coerced incoming `total_amount` is exactly 0 and at
least one line item survives cleaning, the output total is the sum of the
cleaned line totals plus the tax amount; a non-zero incoming total is kept
verbatim, whatever the line items say. -/
theorem c4_total_amount_invariant (data : Candidate) (r : Cleaned) (t : ℚ)
    (hc : clean data = some r)
    (ht : pyFloat (Option.getD data.total_amount (.vnum 0)) = some t) :
    (t = 0 → r.order_details ≠ [] →
        r.total_amount = sumLineTotals r.order_details + r.tax_amount)
    ∧ (t ≠ 0 → r.total_amount = t) := by
  obtain ⟨total, tax, items, htotal, htax, hitems, rfl⟩ := clean_some_spec data r hc
  rw [ht] at htotal
  injection htotal with htotal
  subst htotal
  constructor
  · intro h0 hne
    simp only at hne ⊢
    rw [if_pos ⟨h0, hne⟩]
  · intro hne
    simp only
    rw [if_neg (fun hand => hne hand.1)]

/-- The C4 witness candidate: absent total (coerces to the default 0), tax
3, one line item with a supplied line total of 10. -/
def candC4 : Candidate :=
  { emptyCand with
      invoice_number := some (.vstr "INV-1"),
      tax_amount := some (.vnum 3),
      order_details := some (.list [.dict
        { emptyItem with line_total := some (.vnum 10) }]) }

/-- The record `clean candC4` produces (the total is the recomputed sum). -/
def cleanedC4 : Cleaned :=
  ⟨.vstr "Unknown Customer", .vstr "", .vstr "", .vstr "INV-1",
   sumLineTotals [⟨.vstr "Unknown Product", .vstr "", 1, 0, 10, .vstr ""⟩] + 3,
   3, .vstr "", .vstr "",
   [⟨.vstr "Unknown Product", .vstr "", 1, 0, 10, .vstr ""⟩]⟩

/-- Witness for C4: the theorem applied at `candC4`, whose cleaned total is
the sum of its line totals plus its tax amount. -/
theorem c4_witness :
    cleanedC4.total_amount
      = sumLineTotals cleanedC4.order_details + cleanedC4.tax_amount :=
  (c4_total_amount_invariant candC4 cleanedC4 0 rfl rfl).1 rfl (by decide)

/-! ## Claim C7 -/

/-- Claim C7: a line item whose supplied `line_total` coerces to exactly 0
(or is absent, defaulting to 0) gets `quantity × unit_price` exactly; a
non-zero supplied `line_total` is kept unchanged.  The second conjunct ties
the per-item function to `clean`: the cleaned record's `order_details` are
exactly the cleaned entries of the candidate's list. -/
theorem c7_line_total_invariant :
    (∀ (d : CandItem) (ci : CleanedItem), cleanItem d = some ci →
      (pyFloat (Option.getD d.line_total (.vnum 0)) = some 0 →
          ci.line_total = (ci.quantity : ℚ) * ci.unit_price)
      ∧ (∀ lt, pyFloat (Option.getD d.line_total (.vnum 0)) = some lt →
          lt ≠ 0 → ci.line_total = lt))
    ∧ (∀ (data : Candidate) (r : Cleaned), clean data = some r →
        cleanItems (candDetails data) = some r.order_details) := by
  constructor
  · intro d ci h
    obtain ⟨q, u, lt, hq, hu, hlt, rfl⟩ := cleanItem_some_spec d ci h
    constructor
    · intro h0
      rw [hlt] at h0
      injection h0 with h0
      subst h0
      simp
    · intro lt2 hlt2 hne
      rw [hlt] at hlt2
      injection hlt2 with hlt2
      subst hlt2
      simp [if_neg hne]
  · intro data r h
    obtain ⟨total, tax, items, htotal, htax, hitems, rfl⟩ := clean_some_spec data r h
    exact hitems

/-- The C7 witness item: quantity 3, unit price 10, no supplied line total. -/
def itemC7 : CandItem :=
  { emptyItem with quantity := some (.vnum 3), unit_price := some (.vnum 10) }

/-- The cleaned form of `itemC7` (line total recomputed as 3 × 10). -/
def cleanedItemC7 : CleanedItem :=
  ⟨.vstr "Unknown Product", .vstr "", 3, 10, ((3 : ℤ) : ℚ) * 10, .vstr ""⟩

/-- Witness for C7: the theorem applied at `itemC7`, whose cleaned line
total is its quantity times its unit price. -/
theorem c7_witness :
    cleanedItemC7.line_total
      = (cleanedItemC7.quantity : ℚ) * cleanedItemC7.unit_price :=
  (c7_line_total_invariant.1 itemC7 cleanedItemC7 rfl).1 rfl

/-! ## Claim C6 -/

/-- The already-recomputed line total is a fixed point of the recomputation. -/
theorem lineTotal_recompute_idem (x y : ℚ) :
    (if (if x = 0 then y else x) = 0 then y else (if x = 0 then y else x))
      = (if x = 0 then y else x) := by
  by_cases h : x = 0 <;> simp [h]

/-- Cleaning the re-injection of a cleaned line item reproduces it. -/
theorem cleanItem_roundtrip (d : CandItem) (ci : CleanedItem)
    (h : cleanItem d = some ci) :
    cleanItem (candOfCleanedItem ci) = some ci := by
  obtain ⟨q, u, lt, hq, hu, hlt, rfl⟩ := cleanItem_some_spec d ci h
  simp only [candOfCleanedItem, cleanItem, Option.getD_some, pyInt_vnum_intCast,
    pyFloat, Option.some.injEq, CleanedItem.mk.injEq]
  exact ⟨True.intro, True.intro, True.intro, True.intro,
    lineTotal_recompute_idem lt ((q : ℚ) * u), True.intro⟩

/-- Cleaning the re-injection of a cleaned item list reproduces it. -/
theorem cleanItems_roundtrip (ds : List CandDetail) (items : List CleanedItem)
    (h : cleanItems ds = some items) :
    cleanItems (items.map (fun c => CandDetail.dict (candOfCleanedItem c)))
      = some items := by
  induction ds generalizing items with
  | nil =>
      simp only [cleanItems, Option.some.injEq] at h
      subst h
      simp [cleanItems]
  | cons hd tl ih =>
      cases hd with
      | nondict => exact ih items h
      | dict d =>
          cases hc : cleanItem d with
          | none => simp only [cleanItems, hc] at h; exact Option.noConfusion h
          | some c =>
              cases hcs : cleanItems tl with
              | none =>
                  simp only [cleanItems, hc, hcs] at h
                  exact Option.noConfusion h
              | some cs =>
                  simp only [cleanItems, hc, hcs, Option.some.injEq] at h
                  subst h
                  simp only [List.map_cons, cleanItems,
                    cleanItem_roundtrip d c hc, ih cs hcs]

/-- The already-recomputed header total is a fixed point of the
recomputation. -/
theorem total_recompute_idem (t tax : ℚ) (items : List CleanedItem) :
    (if (if t = 0 ∧ items ≠ [] then sumLineTotals items + tax else t) = 0
          ∧ items ≠ []
     then sumLineTotals items + tax
     else (if t = 0 ∧ items ≠ [] then sumLineTotals items + tax else t))
      = (if t = 0 ∧ items ≠ [] then sumLineTotals items + tax else t) := by
  by_cases h : t = 0 ∧ items ≠ [] <;> simp [h]

/-- `candOfCleaned` exposes exactly the re-injected item list to the
`order_details` loop. -/
theorem candDetails_candOfCleaned (r : Cleaned) :
    candDetails (candOfCleaned r)
      = r.order_details.map (fun c => CandDetail.dict (candOfCleanedItem c)) := rfl

/-- Re-cleaning a record reproduces it, given that its item list and total
are already fixed points. -/
theorem clean_candOfCleaned (r : Cleaned)
    (hitems : cleanItems (r.order_details.map
        (fun c => CandDetail.dict (candOfCleanedItem c))) = some r.order_details)
    (htotal : (if r.total_amount = 0 ∧ r.order_details ≠ []
               then sumLineTotals r.order_details + r.tax_amount
               else r.total_amount) = r.total_amount) :
    clean (candOfCleaned r) = some r := by
  unfold clean
  rw [candDetails_candOfCleaned, hitems]
  simp only [candOfCleaned, Option.getD_some, pyFloat]
  rw [htotal]

/-- Claim C6: `clean` is idempotent — re-cleaning the (re-injected) output
of a successful cleaning reproduces it unchanged. -/
theorem c6_clean_idempotent (x : Candidate) (r : Cleaned)
    (h : clean x = some r) : clean (candOfCleaned r) = some r := by
  obtain ⟨total, tax, items, htotal, htax, hitems, rfl⟩ := clean_some_spec x r h
  exact clean_candOfCleaned _ (cleanItems_roundtrip _ items hitems)
    (total_recompute_idem total tax items)

/-- The C6 witness candidate: a supplied non-zero total, no line items. -/
def candC6 : Candidate :=
  { emptyCand with
      customer_name := some (.vstr "ACME"),
      invoice_number := some (.vstr "INV-6"),
      total_amount := some (.vnum 5) }

/-- The record `clean candC6` produces. -/
def cleanedC6 : Cleaned :=
  ⟨.vstr "ACME", .vstr "", .vstr "", .vstr "INV-6", 5, 0, .vstr "", .vstr "", []⟩

/-- Witness for C6: the theorem applied at `candC6`. -/
theorem c6_witness : clean (candOfCleaned cleanedC6) = some cleanedC6 :=
  c6_clean_idempotent candC6 cleanedC6 rfl

/-! ## Claim C8 -/

/-- `applyNameMatch` never touches the invoice number. -/
theorem applyNameMatch_invoice (t : String) (c : Candidate) :
    (applyNameMatch t c).invoice_number = c.invoice_number := by
  unfold applyNameMatch
  split <;> rfl

/-- `applyTotMatch` never touches the invoice number. -/
theorem applyTotMatch_invoice (t : String) (c : Candidate) :
    (applyTotMatch t c).invoice_number = c.invoice_number := by
  unfold applyTotMatch
  split
  · rfl
  · split <;> rfl

/-- `applyDateMatch` never touches the invoice number. -/
theorem applyDateMatch_invoice (t : String) (c : Candidate) :
    (applyDateMatch t c).invoice_number = c.invoice_number := by
  rcases hm : (findallOrderDate t).getLast? with _ | m
  · simp [applyDateMatch, hm]
  · rcases hf : tryFormatsLocal (pyStrip m) with _ | d
    · simp [applyDateMatch, hm, hf]
    · simp [applyDateMatch, hm, hf]

/-- Claim C8: the rule-based extractor is a pure function of the input text
(two runs on the same text agree), and when the invoice-number pattern has
no match the synthesized number is the hash-derived placeholder
`INV-` + four zero-padded digits — a fixed-width string of length 8. -/
theorem c8_placeholder_deterministic :
    (∀ t : String, localExtraction t = localExtraction t)
    ∧ (∀ t : String, findallInvoiceNumber t = [] →
        (localExtraction t).invoice_number = some (.vstr (invPlaceholder t))
        ∧ (invPlaceholder t).length = 8) := by
  refine ⟨fun t => rfl, fun t h => ⟨?_, rfl⟩⟩
  unfold localExtraction
  rw [applyDateMatch_invoice, applyTotMatch_invoice]
  unfold applyInvMatch
  rw [h]
  rw [applyNameMatch_invoice]
  rfl

/-- Witness for C8: the theorem applied at a text in which the
invoice-number pattern has no match. -/
theorem c8_witness :
    (localExtraction "hello world").invoice_number
        = some (.vstr (invPlaceholder "hello world"))
    ∧ (invPlaceholder "hello world").length = 8 :=
  c8_placeholder_deterministic.2 "hello world" (by decide)

/-! ## Claim C9 -/

/-- Claim C9: when the native text layer of a PDF yields more than 100
characters after trimming, `extractTextFromPdf` returns exactly that text
and the OCR stage is never entered — whatever the OCR environment holds. -/
theorem c9_native_text_no_ocr (env : PdfEnv) (ps : List String)
    (hp : env.pageTexts = some ps)
    (hlen : 100 < (pyStrip (nativePdfText ps)).length) :
    extractTextFromPdf env = ⟨nativePdfText ps, false⟩ := by
  have hne : nativePdfText ps ≠ "" := by
    intro h0
    rw [h0] at hlen
    exact absurd hlen (by decide)
  unfold extractTextFromPdf
  rw [hp]
  simp only [if_pos (And.intro hne hlen)]

/-- A 101-character native text layer. -/
def pageC9 : String := String.mk (List.replicate 101 'a')

/-- Witness for C9: the theorem applied at a concrete environment whose
text layer trims to 101 characters, with OCR available and primed. -/
theorem c9_witness :
    extractTextFromPdf ⟨some [pageC9], true, some ["x"]⟩
      = ⟨nativePdfText [pageC9], false⟩ :=
  c9_native_text_no_ocr ⟨some [pageC9], true, some ["x"]⟩ [pageC9] rfl
    (by decide)

/-! ## Claim C10 -/

/-- Claim C10: every error result of `extractInvoiceData` carries fallback
data — in fact always the synthetic record of `_generateFallbackData` —
so the orchestrator's error-without-fallback branch is unreachable from
this pipeline. -/
theorem c10_error_implies_fallback (env : LlmEnv) (msg : String)
    (fb : Option Cleaned) (pv : Option String)
    (h : extractInvoiceData env = .failure msg fb pv) :
    fb = some env.fallbackRec := by
  unfold extractInvoiceData at h
  split at h
  · injection h with h1 h2 h3
    exact h2.symm
  · split at h
    · split at h
      · split at h
        · exact ExtractResult.noConfusion h
        · injection h with h1 h2 h3
          exact h2.symm
      · unfold localLeg at h
        split at h
        · exact ExtractResult.noConfusion h
        · injection h with h1 h2 h3
          exact h2.symm
    · unfold localLeg at h
      split at h
      · exact ExtractResult.noConfusion h
      · injection h with h1 h2 h3
        exact h2.symm

/-- The C10 witness environment: empty document text, no model client. -/
def envC10 : LlmEnv :=
  ⟨"", false, .apiError "Google API not available",
   ⟨.vstr "Sample Customer", .vstr "customer@example.com", .vstr "2024-01-15",
    .vstr "INV-FALLBACK-5678", 150, 0, .vstr "123 Main St", .vstr "123 Main St",
    [⟨.vstr "Product ABC", .vstr "45645645", 1, 75, 75, .vstr "desc"⟩]⟩⟩

/-- Witness for C10: the theorem applied at `envC10`, whose empty document
text produces the insufficient-text error carrying the fallback record. -/
theorem c10_witness :
    (some envC10.fallbackRec : Option Cleaned) = some envC10.fallbackRec :=
  c10_error_implies_fallback envC10
    "Could not extract sufficient text from document."
    (some envC10.fallbackRec) (some "") (by decide)

/-! ## Claim C5 -/

/-- Stripping preserves character membership. -/
theorem mem_pyStripList {c : Char} {l : List Char} (h : c ∈ pyStripList l) :
    c ∈ l := by
  unfold pyStripList at h
  rw [List.mem_reverse] at h
  have h2 := ((List.dropWhile_sublist isPyWs).mem h)
  rw [List.mem_reverse] at h2
  exact (List.dropWhile_sublist isPyWs).mem h2

/-- Fence stripping preserves character membership. -/
theorem mem_jrStage1 {c : Char} {l : List Char} (h : c ∈ jrStage1 l) :
    c ∈ l := by
  simp only [jrStage1] at h
  split at h
  · split at h
    · exact mem_pyStripList ((List.drop_sublist _ _).mem (mem_pyStripList h))
    · exact mem_pyStripList ((List.drop_sublist _ _).mem (mem_pyStripList h))
  · exact mem_pyStripList h

/-- Trailing-fence stripping preserves character membership. -/
theorem mem_jrStage2 {c : Char} {l : List Char} (h : c ∈ jrStage2 l) :
    c ∈ l := by
  unfold jrStage2 at h
  split at h
  · exact (List.take_sublist _ _).mem (mem_pyStripList h)
  · exact h

/-- Fence-truncation preserves character membership. -/
theorem mem_jrStage3 {c : Char} {l : List Char} (h : c ∈ jrStage3 l) :
    c ∈ l := by
  unfold jrStage3 at h
  split at h
  · exact (List.take_sublist _ _).mem (mem_pyStripList h)
  · exact h

/-- The whole response pre-processing preserves character membership. -/
theorem mem_jrProcess {c : Char} {l : List Char} (h : c ∈ jrProcess l) :
    c ∈ l :=
  mem_jrStage1 (mem_jrStage2 (mem_jrStage3 h))

/-- `str.find` of a single character fails exactly on strings not
containing it. -/
theorem findSub_single_none {c : Char} {l : List Char} (h : c ∉ l) :
    findSub [c] l = none := by
  induction l with
  | nil => rfl
  | cons d rest ih =>
      rw [List.mem_cons, not_or] at h
      obtain ⟨h1, h2⟩ := h
      have hpre : [c].isPrefixOf (d :: rest) = false := by
        simp [List.isPrefixOf, h1]
      simp [findSub, hpre, ih h2]

/-- The preview attached to an error is at most 200 characters. -/
theorem jrPreview_length_le (cs : List Char) : (jrPreview cs).length ≤ 200 := by
  show (cs.take 200).length ≤ 200
  rw [List.length_take]
  exact min_le_left _ _

/-- Claim C5: the JSON-repair behaviour of `_parseJsonResponse`.  The two
concrete repair examples of the specification hold; a response containing
no opening brace always yields the structured error; and every error result
carries a preview of at most 200 characters.  (`parseJsonResponse` is a
total function, so no exception can cross this boundary.) -/
theorem c5_json_repair :
    parseJsonResponse "```json\n\x7b\"a\":1\x7d\n```"
        = .ok (.jobj (.cons "a" (.jnum 1) .nil))
    ∧ parseJsonResponse "prefix \x7b\"a\":1"
        = .ok (.jobj (.cons "a" (.jnum 1) .nil))
    ∧ (∀ t : String, '\x7b' ∉ t.data →
        ∃ p, parseJsonResponse t = .err "No valid JSON found in response" p)
    ∧ (∀ t m p, parseJsonResponse t = .err m p → p.length ≤ 200) := by
  refine ⟨by decide, by decide, ?_, ?_⟩
  · intro t h
    have h2 : '\x7b' ∉ jrProcess t.data := fun hm => h (mem_jrProcess hm)
    simp only [parseJsonResponse] at h2 ⊢
    rw [findSub_single_none h2]
    exact ⟨jrPreview (jrProcess t.data), rfl⟩
  · intro t m p h
    simp only [parseJsonResponse] at h
    split at h
    · split at h
      · split at h
        · exact JsonParseResult.noConfusion h
        · injection h with h1 h2
          subst h2
          exact jrPreview_length_le _
      · injection h with h1 h2
        subst h2
        exact jrPreview_length_le _
    · split at h
      · exact JsonParseResult.noConfusion h
      · injection h with h1 h2
        subst h2
        exact jrPreview_length_le _
    · injection h with h1 h2
      subst h2
      exact jrPreview_length_le _

/-- Witness for C5: the no-brace clause applied at a concrete braceless
response text. -/
theorem c5_witness :
    ∃ p, parseJsonResponse "no json here"
        = .err "No valid JSON found in response" p :=
  c5_json_repair.2.2.1 "no json here" (by decide)

end CaseStudy
